import Mathlib

/-!
A verification development for `latexmake.py` (latexmk.py), a build
orchestrator that repeatedly runs a LaTeX compiler, a bibliography tool
and an index tool until the document is stable.

The Python source is shallowly embedded here:

* Strings are `List Char` (`Str`).  File contents keep their newline
  characters; regex scanning is modelled per line because none of the
  patterns used by the program can match across a newline
  (`.` never matches a newline, and no literal in any pattern is a
  newline).
* Python dictionaries are association lists with unique keys in
  insertion order (`dlookup`/`dinsert`).
* The file system is an association list from path to `FileData`
  (content plus modification time; the modification time is needed to
  model `filecmp.cmp`, whose default shallow mode compares the
  `os.stat` signature: file type, size, mtime).
* External processes (latex, bibtex, makeindex, `os.remove` failures)
  are nondeterministic: an `Oracle` supplies, for each invocation, the
  resulting file-system state and whether launching raised `OSError`.
* Python exceptions are values of `PyErr`; a function that can raise
  returns `Except PyErr`.  `latexMkError` is the program's own
  `LatexMkError`; `nameError` models the `NameError` raised by the
  undefined `hashlib` reference in `_read_latex_files` and
  `_is_toc_changed`; `ioError` models `IOError`/`OSError` raised by
  `open` on a missing file.

Each regex of the source is embedded as a specialized matcher that
implements the leftmost, greedy backtracking semantics of Python's
`re` for exactly that pattern; the derivation is documented at each
definition.
-/

/-- Strings of the embedding: Python `str` as a list of characters. -/
abbrev Str := List Char

/-- The closing brace character (written in escaped form). -/
def rbrace : Char := '\x7d'

/-- The newline character. -/
def nl : Char := '\n'

/-- Split a string at newline characters, like iterating the lines of a
Python string.  `splitLines []` is `[[]]`, matching `''.split('\n')`. -/
def splitLines : Str → List Str
  | [] => [[]]
  | c :: t =>
    if c = nl then [] :: splitLines t
    else
      match splitLines t with
      | l :: ls => (c :: l) :: ls
      | [] => [[c]]

/-- Try `f` on every suffix of the input, leftmost first, returning the
first `some`.  This models `re` scanning for the leftmost position at
which a pattern matches. -/
def scanLine (f : Str → Option α) : Str → Option α
  | [] => f []
  | c :: t =>
    match f (c :: t) with
    | some r => some r
    | none => scanLine f t

/-- Boolean variant of `scanLine`: does `f` hold on any suffix? -/
def scanB (f : Str → Bool) : Str → Bool
  | [] => f []
  | c :: t => f (c :: t) || scanB f t

/-- Substring test: does `pat` occur (contiguously) in `s`? -/
def hasSub (pat s : Str) : Bool := scanB (fun l => pat.isPrefixOf l) s

/-- `pat` occurs in `s` followed by at least one further character. -/
def hasSubThen1 (pat s : Str) : Bool :=
  scanB (fun l => pat.isPrefixOf l && decide (pat.length < l.length)) s

/-- Match a regex consisting only of literal characters and `.`
(any character except newline) against a prefix of `s`.  The pattern is
given as a string in which the character `.` is the wildcard — exactly
how the source interpolates file names, with their dots unescaped, into
patterns such as `'No file %s.'`. -/
def wildAt : Str → Str → Bool
  | [], _ => true
  | _ :: _, [] => false
  | p :: pt, c :: ct =>
    if p = '.' then (if c = nl then false else wildAt pt ct)
    else (if p = c then wildAt pt ct else false)

/-- `re.search` of a literal-and-dot pattern: does it match anywhere? -/
def wildSearch (pat s : Str) : Bool := scanB (wildAt pat) s

/-- The prefix of `l` that precedes the last `\x7d` in `l`, if any.
This is the capture of a greedy `(.*)` that is followed in the pattern
by a closing-brace literal at the end of the pattern: the star grabs
the whole rest of the line and backtracks to the last brace. -/
def upToLastBrace (l : Str) : Option Str :=
  match l.reverse.dropWhile (fun c => c ≠ rbrace) with
  | [] => none
  | _ :: t => some t.reverse

/-- Association-list lookup (Python `dict` access). -/
def dlookup : List (Str × α) → Str → Option α
  | [], _ => none
  | (k, v) :: t, q => if k = q then some v else dlookup t q

/-- Association-list insert/overwrite keeping insertion order
(Python `d[k] = v`). -/
def dinsert : List (Str × α) → Str → α → List (Str × α)
  | [], k, v => [(k, v)]
  | (k', v') :: t, k, v =>
    if k' = k then (k', v) :: t else (k', v') :: dinsert t k v

/-- Key membership in an association list. -/
def dmem (d : List (Str × α)) (k : Str) : Bool := (dlookup d k).isSome

/-- Python `dict` equality on association lists whose keys are unique:
same key set and equal values, order-irrelevant. -/
def dictEqb (eqv : α → α → Bool) (d1 d2 : List (Str × α)) : Bool :=
  d1.all (fun p =>
    match dlookup d2 p.1 with
    | some w => eqv p.2 w
    | none => false) &&
  d2.all (fun p => dmem d1 p.1)

/-- A citation counter: Python `defaultdict(int)` restricted to the
keys that were actually bumped (every stored count is positive). -/
abbrev Counter := List (Str × Nat)

/-- `counter[name] += 1` on a `defaultdict(int)`. -/
def bump : Counter → Str → Counter
  | [], k => [(k, 1)]
  | (k', n) :: t, k =>
    if k' = k then (k', n + 1) :: t else (k', n) :: bump t k

/-- The count stored for `k` (0 when absent, as in `defaultdict(int)`). -/
def countOf (c : Counter) (k : Str) : Nat := (dlookup c k).getD 0

/-- The aggregate citation counter: file name to per-file counter. -/
abbrev CC := List (Str × Counter)

/-- Glossary registry: name to `(ext_i, ext_o)`. -/
abbrev Registry := List (Str × (Str × Str))

/-- Snapshot of glossary output-file contents, keyed by glossary name. -/
abbrev GlossFiles := List (Str × Str)

/-- A file: its content and its modification time.  The modification
time participates only in `filecmp.cmp`'s shallow stat-signature
comparison. -/
structure FileData where
  content : Str
  mtime : Nat
deriving DecidableEq

/-- The file system: path to file data, unique keys. -/
abbrev FS := List (Str × FileData)

/-- `os.path.isfile`. -/
def isfile (fs : FS) (name : Str) : Bool := (dlookup fs name).isSome

/-- `open(name).read()`: `none` models the raised `IOError`. -/
def readFile (fs : FS) (name : Str) : Option Str :=
  (dlookup fs name).map FileData.content

/-- Python exceptions relevant to the program. -/
inductive PyErr where
  /-- The program's own `LatexMkError`, carrying its message. -/
  | latexMkError (msg : Str)
  /-- `NameError`: evaluation of the undefined name `hashlib`
  (the module is never imported; only `sha256` is). -/
  | nameError
  /-- `IOError` from `open` on a missing file, or an uncaught `OSError`. -/
  | ioError
deriving DecidableEq

/-! ## Regex embeddings

Each constant below is one of the compiled patterns of the source,
embedded as a specialized matcher with Python `re`'s leftmost, greedy,
backtracking semantics.  None of the patterns can match across a
newline, so `re.finditer` over a whole file equals the concatenation of
the per-line matches, and at most one match is possible per line for
the finditer patterns (each match extends to the last closing brace of
its line, after which the line holds no further closing brace). -/

/-- The literal prefix of `CITE_PATTERN`. -/
def citeMarker : Str := ("\\citation\x7b").toList

/-- The literal prefix of `BIB_PATTERN`. -/
def bibdataMarker : Str := ("\\bibdata\x7b").toList

/-- The literal prefix of the `\@input` pattern in
`generate_citation_counter`. -/
def inputMarker : Str := ("\\@input\x7b").toList

/-- The literal prefix of the `\@newglossary` pattern in
`read_glossaries`. -/
def glossMarker : Str := ("\\@newglossary\x7b").toList

/-- The two-character separator between brace groups. -/
def braceSep : Str := ['\x7d', '\x7b']

/-- `CITE_PATTERN = r'\\citation\{(.*)\}'` on one line: the leftmost
position where the literal prefix matches and a closing brace follows;
the greedy star makes the capture run to the last closing brace of the
line. -/
def citeLine (line : Str) : Option Str :=
  scanLine
    (fun s =>
      if citeMarker.isPrefixOf s then upToLastBrace (s.drop citeMarker.length)
      else none)
    line

/-- `BIB_PATTERN = r'\\bibdata\{(.*)\}'` on one line (same shape as
`citeLine`). -/
def bibdataLine (line : Str) : Option Str :=
  scanLine
    (fun s =>
      if bibdataMarker.isPrefixOf s then upToLastBrace (s.drop bibdataMarker.length)
      else none)
    line

/-- `re.search(BIB_PATTERN, text)`: the first line with a match. -/
def bibdataSearch (content : Str) : Option Str :=
  (splitLines content).findSome? bibdataLine

/-- Capture of `(.*\.aux)` followed by a closing brace: the prefix of
`l` that ends with the last occurrence of `.aux` directly followed by a
closing brace (the greedy star backtracks to the last such position).
Checking the tail first yields the last occurrence. -/
def lastAuxCapture : Str → Option Str
  | [] => none
  | c :: t =>
    match lastAuxCapture t with
    | some cap => some (c :: cap)
    | none =>
      if (".aux\x7d").toList.isPrefixOf (c :: t) then some ((".aux").toList)
      else none

/-- `r'\\@input\{(.*\.aux)\}'` on one line. -/
def inputLine (line : Str) : Option Str :=
  scanLine
    (fun s =>
      if inputMarker.isPrefixOf s then lastAuxCapture (s.drop inputMarker.length)
      else none)
    line

/-- `re.finditer` of the `\@input` pattern over a whole text. -/
def inputRefs (content : Str) : List Str :=
  (splitLines content).filterMap inputLine

/-- Try `f k` for `k = n, n-1, …, 0` and return the first success:
the backtracking search of a greedy star that first consumes as much
as possible. -/
def tryLens (f : Nat → Option α) : Nat → Option α
  | 0 => f 0
  | n + 1 =>
    match f (n + 1) with
    | some r => some r
    | none => tryLens f n

/-- The tail of `r'\\@newglossary\{(.*)\}\{.*\}\{(.*)\}\{(.*)\}'` after
its literal prefix: four greedy stars separated by brace pairs, with
backtracking priority left to right (first star longest first, then the
uncaptured middle star, then the second and third captures; the last
capture runs to the last closing brace of the line). -/
def glossTail (s : Str) : Option (Str × Str × Str) :=
  tryLens
    (fun k1 =>
      let g1 := s.take k1
      let r1 := s.drop k1
      if braceSep.isPrefixOf r1 then
        let r1' := r1.drop 2
        tryLens
          (fun k2 =>
            let r2 := r1'.drop k2
            if braceSep.isPrefixOf r2 then
              let r2' := r2.drop 2
              tryLens
                (fun k3 =>
                  let g2 := r2'.take k3
                  let r3 := r2'.drop k3
                  if braceSep.isPrefixOf r3 then
                    match upToLastBrace (r3.drop 2) with
                    | some g3 => some (g1, g2, g3)
                    | none => none
                  else none)
                r2'.length
            else none)
          r1'.length
      else none)
    s.length

/-- The `\@newglossary` pattern on one line. -/
def glossLine (line : Str) : Option (Str × Str × Str) :=
  scanLine
    (fun s =>
      if glossMarker.isPrefixOf s then glossTail (s.drop glossMarker.length)
      else none)
    line

/-- `re.finditer` of the `\@newglossary` pattern over a whole text:
`(name, ext_i, ext_o)` triples in order of appearance. -/
def glossDecls (content : Str) : List (Str × Str × Str) :=
  (splitLines content).filterMap glossLine

/-- `r'LaTeX Warning: Citation .* undefined'` (`re.search`): some line
contains the literal prefix somewhere, with the literal suffix later in
the same line. -/
def citeUndefSearch (out : Str) : Bool :=
  (splitLines out).any fun line =>
    scanB
      (fun l =>
        ("LaTeX Warning: Citation ").toList.isPrefixOf l &&
        hasSub ((" undefined").toList) (l.drop ("LaTeX Warning: Citation ").toList.length))
      line

/-- `r'LaTeX Warning: Reference .* undefined'` (`re.search`). -/
def refUndefSearch (out : Str) : Bool :=
  (splitLines out).any fun line =>
    scanB
      (fun l =>
        ("LaTeX Warning: Reference ").toList.isPrefixOf l &&
        hasSub ((" undefined").toList) (l.drop ("LaTeX Warning: Reference ").toList.length))
      line

/-- `r'No file .*(\.toc|\.lof)\.'` (`re.search`): some line contains
the literal `No file ` followed, later in the line, by `.toc` or
`.lof` with at least one further character (the final escaped-dot
wildcard, which inside one line is never a newline). -/
def noFileTocSearch (out : Str) : Bool :=
  (splitLines out).any fun line =>
    scanB
      (fun l =>
        ("No file ").toList.isPrefixOf l &&
        (hasSubThen1 ((".toc").toList) (l.drop ("No file ").toList.length) ||
         hasSubThen1 ((".lof").toList) (l.drop ("No file ").toList.length)))
      line

/-- `LatexMaker.need_latex_rerun`: test all `LATEX_RERUN_PATTERNS`
against the captured log.  The second and third patterns are fully
literal once their escapes are resolved. -/
def need_latex_rerun (out : Str) : Bool :=
  refUndefSearch out ||
  hasSub (("LaTeX Warning: There were undefined references.").toList) out ||
  hasSub (("LaTeX Warning: Label(s) may have changed.").toList) out ||
  noFileTocSearch out

/-- `ERROR_PATTTERN` has three alternatives; a match exists in the log
iff some line starts with `! ` (second alternative; the first
alternative's matches are a subset of those lines) or the
literals-and-wildcard pattern `No pages of output.` occurs (third
alternative).  This is the truth of `if errors:` in `check_errors`. -/
def errorsFound (out : Str) : Bool :=
  (splitLines out).any (fun l => ("! ").toList.isPrefixOf l) ||
  wildSearch (("No pages of output.").toList) out

/-! ## File-name suffixes used by the program -/

/-- The `.aux` suffix. -/
def dotAux : Str := (".aux").toList

/-- The `.toc` suffix. -/
def dotToc : Str := (".toc").toList

/-- The `.log` suffix. -/
def dotLog : Str := (".log").toList

/-- The `.bib` suffix. -/
def dotBib : Str := (".bib").toList

/-- The `.bib.old` suffix of the saved bibliography copy. -/
def dotBibOld : Str := (".bib.old").toList

/-- The dot character used by `'%s.%s'` file-name formatting. -/
def dotChar : Char := '.'

/-! ## Citation counting -/

/-- The capture of every `CITE_PATTERN` match of a text, in order. -/
def citeKeys (content : Str) : List Str :=
  (splitLines content).filterMap citeLine

/-- `_count_citations` on a file content: one `counter[name] += 1`
per match of `CITE_PATTERN`. -/
def count_citations_text (content : Str) : Counter :=
  (citeKeys content).foldl bump []

/-- `_count_citations(aux_file)`: reads the file (raising `IOError`,
modelled as `none`, when it is missing) and counts its citations. -/
def count_citations (fs : FS) (aux_file : Str) : Option Counter :=
  (readFile fs aux_file).map count_citations_text

/-- `LatexMaker.generate_citation_counter`: counter of the main aux
file keyed by its name, then one entry per readable `\@input`-referenced
aux file; unreadable referenced files are skipped (`except IOError:
pass`).  `none` models the `IOError` of a missing main aux file. -/
def generate_citation_counter (fs : FS) (project : Str) : Option CC :=
  match readFile fs (project ++ dotAux) with
  | none => none
  | some main_aux =>
    some ((inputRefs main_aux).foldl
      (fun cc fname =>
        match readFile fs fname with
        | none => cc
        | some content => dinsert cc fname (count_citations_text content))
      (dinsert [] (project ++ dotAux) (count_citations_text main_aux)))

/-- `LatexMaker.read_glossaries`: fold the declarations parsed from the
current main aux file into the existing registry `gl0` (the source
updates `self.glossaries` per declaration and never clears it).
`none` models the `IOError` of a missing aux file. -/
def read_glossaries (fs : FS) (project : Str) (gl0 : Registry) : Option Registry :=
  (readFile fs (project ++ dotAux)).map fun main_aux =>
    (glossDecls main_aux).foldl (fun g d => dinsert g d.1 (d.2.1, d.2.2)) gl0

/-! ## Error scanning and `check_errors` -/

/-- The literals-and-wildcard pattern of the third `ERROR_PATTTERN`
alternative (final unescaped dot). -/
def noPagesPat : Str := ("No pages of output.").toList

/-- All non-overlapping matches of the `No pages of output.` alternative
inside one line, as `re.findall` collects them (the fuel is an upper
bound on steps; each step consumes at least one character). -/
def noPagesPiecesAux : Nat → Str → List Str
  | 0, _ => []
  | _ + 1, [] => []
  | fuel + 1, c :: t =>
    if wildAt noPagesPat (c :: t) then
      ((c :: t).take noPagesPat.length) :: noPagesPiecesAux fuel ((c :: t).drop noPagesPat.length)
    else noPagesPiecesAux fuel t

/-- Matches of the third alternative in one line. -/
def noPagesPieces (l : Str) : List Str := noPagesPiecesAux l.length l

/-- The non-empty captures of `ERROR_PATTTERN.findall`, walked line by
line: a line starting `! ` matches the two-line first alternative when
the next line starts `l.` (consuming both lines), otherwise the
one-line second alternative; any other line can only contribute
third-alternative matches. -/
def errorPieces : List Str → List Str
  | [] => []
  | l :: rest =>
    if ("! ").toList.isPrefixOf l then
      match rest with
      | l2 :: rest2 =>
        if ("l.").toList.isPrefixOf l2 then
          (l.drop 2 ++ [nl] ++ l2) :: errorPieces rest2
        else (l.drop 2) :: errorPieces (l2 :: rest2)
      | [] => [l.drop 2]
    else noPagesPieces l ++ errorPieces rest

/-- Python `str.strip()`. -/
def stripWs (s : Str) : Str :=
  ((s.dropWhile Char.isWhitespace).reverse.dropWhile Char.isWhitespace).reverse

/-- `'\n'.join`. -/
def joinNl (l : List Str) : Str := (l.intersperse [nl]).flatten

/-- The aggregated error message of `check_errors`: each capture with
carriage returns removed and surrounding whitespace stripped, empty
captures dropped, joined by newlines. -/
def error_text (out : Str) : Str :=
  joinNl (((errorPieces (splitLines out)).map
    (fun p => stripWs (p.filter (fun c => c ≠ '\r')))).filter (fun p => p ≠ []))

/-- `LatexMaker.check_errors`: when `ERROR_PATTTERN` matched, the
errors are logged; with `exit_on_error` set a `LatexMkError` carrying
the aggregated message plus a pointer to the log file is raised,
otherwise the run proceeds. -/
def check_errors (project out : Str) (exit_on_error : Bool) : Except PyErr Unit :=
  if errorsFound out then
    if exit_on_error then
      .error (.latexMkError (error_text out ++ [nl] ++
        ("See \"").toList ++ project ++ (".log\" for details.").toList))
    else .ok ()
  else .ok ()

/-! ## Bibliography decision -/

/-- Counter equality as Python compares `defaultdict(int)` values. -/
def counterEqb (c1 c2 : Counter) : Bool := dictEqb (fun a b => a == b) c1 c2

/-- Aggregate-counter equality (`old_cite_counter !=
self.generate_citation_counter()` negated). -/
def ccEqb (a b : CC) : Bool := dictEqb counterEqb a b

/-- `filecmp.cmp(new, old)` with its default `shallow=True`: both
files in the model are regular, so the comparison is true when the
stat signatures (size, mtime) coincide, and otherwise falls back to a
byte comparison of the contents (a size mismatch short-circuits to
false, which the content comparison subsumes). -/
def filecmp_cmp (a b : FileData) : Bool :=
  (a.content.length == b.content.length && a.mtime == b.mtime) || a.content == b.content

/-- The saved-copy rule of `_need_bib_run`: if `<bib>.bib.old` exists
and `filecmp.cmp` reports the pair unequal, a bibliography rerun is
needed.  At its call site the current `<bib>.bib` is known to exist;
the unreachable missing-file branches are mapped to `false`. -/
def bib_old_check (fs : FS) (bib_file : Str) : Bool :=
  if isfile fs (bib_file ++ dotBibOld) then
    match dlookup fs (bib_file ++ dotBib), dlookup fs (bib_file ++ dotBibOld) with
    | some a, some b => !(filecmp_cmp a b)
    | _, _ => false
  else false

/-- `LatexMaker._need_bib_run`.  Returns the decision together with the
updated `self.bib_file` (set only when a `\bibdata` directive was
found; `bib_file0` is the prior value, `''` initially).  The implicit
`return None` paths of the source are `false`.  The missing-`.bbl`
check interpolates the project name into the pattern with its dots
unescaped (wildcards), as the source does. -/
def need_bib_run (fs : FS) (project out : Str) (old_cite_counter : CC)
    (bib_file0 : Str) : Except PyErr (Bool × Str) :=
  match readFile fs (project ++ dotAux) with
  | none => .error .ioError
  | some main_aux =>
    match bibdataSearch main_aux with
    | none => .ok (false, bib_file0)
    | some bf =>
      if !(isfile fs (bf ++ dotBib)) then .ok (false, bf)
      else if wildSearch (("No file ").toList ++ project ++ (".bbl.").toList) out then
        .ok (true, bf)
      else if citeUndefSearch out then .ok (true, bf)
      else
        match generate_citation_counter fs project with
        | none => .error .ioError
        | some new_cc =>
          if !(ccEqb old_cite_counter new_cc) then .ok (true, bf)
          else if bib_old_check fs bf then .ok (true, bf)
          else .ok (false, bf)

/-! ## Pre-run snapshot and table-of-contents comparison

The source computes the table-of-contents hash with
`hashlib.sha265(...)` in `_read_latex_files` and `hashlib.sha256(...)`
in `_is_toc_changed`, but `hashlib` is never imported (the module only
does `from hashlib import sha256`) — so whenever the `.toc` file
exists, evaluating either expression raises `NameError` at runtime.
The embedding reflects this faithfully. -/

/-- `LatexMaker._is_toc_changed`: raises `NameError` when the `.toc`
file exists (undefined `hashlib`); returns `None` (falsy) otherwise. -/
def is_toc_changed (fs : FS) (project : Str) (_toc_sha : Str) : Except PyErr Bool :=
  if isfile fs (project ++ dotToc) then .error .nameError else .ok false

/-- `LatexMaker._read_latex_files`: the pre-run snapshot.  Returns the
citation counter, the updated glossary registry (`read_glossaries` is
called when the aux file exists), the `toc_sha` (only the empty
sentinel is reachable — an existing `.toc` raises `NameError`), and the
contents of the existing glossary output files keyed by glossary
name. -/
def read_latex_files (fs : FS) (project : Str) (gl0 : Registry) :
    Except PyErr (CC × Registry × Str × GlossFiles) :=
  match
    (if isfile fs (project ++ dotAux) then
      match generate_citation_counter fs project, read_glossaries fs project gl0 with
      | some cc, some gl => Except.ok (cc, gl)
      | _, _ => Except.error PyErr.ioError
    else Except.ok (dinsert [] (project ++ dotAux) [], gl0) :
      Except PyErr (CC × Registry))
  with
  | .error e => .error e
  | .ok (cc, gl) =>
    if isfile fs (project ++ dotToc) then .error .nameError
    else
      .ok (cc, gl, [],
        gl.foldl
          (fun acc p =>
            match readFile fs (project ++ [dotChar] ++ p.2.2) with
            | some content => dinsert acc p.1 content
            | none => acc)
          [])

/-! ## Project-name resolution from `.texlipse` -/

/-- `TEXLIPSE_MAIN_PATTERN = r'^mainTexFile=(.*)(?:\.tex)$'` with
`re.M`: the first line starting with the literal and ending in `.tex`;
the greedy capture is the part between them (extending over any
earlier `.tex`). -/
def texlipseMain (content : Str) : Option Str :=
  (splitLines content).findSome? fun line =>
    if ("mainTexFile=").toList.isPrefixOf line then
      let rest := line.drop ("mainTexFile=").toList.length
      if (".tex").toList.isSuffixOf rest then some (rest.take (rest.length - 4))
      else none
    else none

/-- `LatexMaker._parse_texlipse_config`: a missing `.texlipse` file
(also after the retry, which in the model sees the same file system) or
a failed parse is fatal via `_fatal_error`, which raises
`LatexMkError`. -/
def parse_texlipse_config (fs : FS) : Except PyErr Str :=
  if !(isfile fs ((".texlipse").toList)) then
    .error (.latexMkError (("! Fatal error: File .texlipse is missing.").toList))
  else
    match readFile fs ((".texlipse").toList) with
    | none => .error .ioError
    | some content =>
      match texlipseMain content with
      | some name => .ok name
      | none => .error (.latexMkError (("! Fatal error: Parsing .texlipse failed.").toList))

/-! ## The orchestrator -/

/-- The configuration resolved by `main` and `__init__`. -/
structure Opt where
  clean : Bool
  pdf : Bool
  exit_on_error : Bool
  check_cite : Bool
  preview : Bool
  notify : Bool
  command : Option Str

/-- `self.latex_cmd` as resolved in `__init__`. -/
def latex_cmd (opt : Opt) : Str :=
  match opt.command with
  | some c => c
  | none => if opt.pdf then ("pdflatex").toList else ("latex").toList

/-- `NO_LATEX_ERROR % cmd`. -/
def no_latex_error (cmd : Str) : Str :=
  ("Could not run command \"").toList ++ cmd ++
  ("\". Is your latex distribution under your PATH?").toList

/-- The outcome of one external compiler invocation: whether `Popen`
raised `OSError`, and the file system after the tool exited. -/
structure PassResult where
  launchFails : Bool
  fs : FS

/-- The nondeterministic environment: what each external tool
invocation does.  Compiler passes are keyed by the value of
`latex_run_counter` at invocation time; makeindex invocations by a
running index. -/
structure Oracle where
  latex : Nat → PassResult
  mkFails : Nat → Bool
  mkFs : Nat → FS
  btFails : Bool
  btFs : FS
  copyMtime : Nat
  removeFails : Str → Bool

/-- `MAX_RUNS` of the source. -/
def MAX_RUNS : Nat := 4

/-- `LatexMaker.latex_run`: launch the compiler (an `OSError` is fatal
via `_fatal_error`, before the counter is incremented); on success
increment `latex_run_counter`, read the log file (its absence raises
`IOError`) and run `check_errors`.  Returns the updated counter
together with the captured log and the file system. -/
def latex_run (opt : Opt) (o : Oracle) (project : Str) (counter : Nat) :
    Nat × Except PyErr (Str × FS) :=
  let r := o.latex counter
  if r.launchFails then
    (counter, .error (.latexMkError (no_latex_error (latex_cmd opt))))
  else
    match readFile r.fs (project ++ dotLog) with
    | none => (counter + 1, .error .ioError)
    | some out =>
      match check_errors project out opt.exit_on_error with
      | .error e => (counter + 1, .error e)
      | .ok _ => (counter + 1, .ok (out, r.fs))

/-- `LatexMaker.bibtex_run`: launch bibtex (an `OSError` is fatal),
then `shutil.copy` the bibliography source to `<bib>.bib.old`
(copying the content; the destination's modification time is fresh). -/
def bibtex_run (o : Oracle) (bib_file : Str) : Except PyErr FS :=
  if o.btFails then .error (.latexMkError (no_latex_error (("bibtex").toList)))
  else
    match readFile o.btFs (bib_file ++ dotBib) with
    | none => .error .ioError
    | some c => .ok (dinsert o.btFs (bib_file ++ dotBibOld) ⟨c, o.copyMtime⟩)

/-- The per-glossary rebuild decision of `makeindex_runs`: the log
reports the input file missing (pattern `'No file %s.' % fname_in`
with unescaped dots), or the output file does not exist, or its
content differs from the snapshot (a missing snapshot key raises
`KeyError`, caught to mean rebuild). -/
def make_gloss_decision (fs : FS) (project out : Str) (gloss_files : GlossFiles)
    (gloss ei eo : Str) : Bool :=
  let fname_in := project ++ [dotChar] ++ ei
  let fname_out := project ++ [dotChar] ++ eo
  wildSearch (("No file ").toList ++ fname_in ++ [dotChar]) out ||
  (match readFile fs fname_out with
   | none => true
   | some content =>
     match dlookup gloss_files gloss with
     | none => true
     | some snap => !(snap == content))

/-- `LatexMaker.makeindex_runs`: walk the registry in order; for each
glossary needing a rebuild, launch makeindex (an `OSError` is fatal)
and record that a rebuild occurred.  Returns the cumulative
`gloss_changed` flag, the final file system, the next makeindex
invocation index, and the list of glossaries for which the tool was
invoked (in order). -/
def makeindex_runs (o : Oracle) (project out : Str) (gloss_files : GlossFiles) :
    Registry → FS → Nat → Except PyErr (Bool × FS × Nat × List Str)
  | [], fs, mk => .ok (false, fs, mk, [])
  | (gloss, (ei, eo)) :: rest, fs, mk =>
    if make_gloss_decision fs project out gloss_files gloss ei eo then
      if o.mkFails mk then
        .error (.latexMkError (no_latex_error (("makeindex").toList)))
      else
        match makeindex_runs o project out gloss_files rest (o.mkFs mk) (mk + 1) with
        | .error e => .error e
        | .ok (_, fs', mk', inv) => .ok (true, fs', mk', gloss :: inv)
    else
      makeindex_runs o project out gloss_files rest fs mk

/-- The rerun loop of `run()` (step 7): while `latex_run_counter <
MAX_RUNS` and a rerun trigger matches the captured log, run the
compiler again.  The fuel argument only realizes termination: `run`
calls the loop with fuel `MAX_RUNS`, which bounds the possible
iterations from any counter value since the counter strictly increases
and the source's guard `latex_run_counter < MAX_RUNS` is checked
first. -/
def rerun_loop (opt : Opt) (o : Oracle) (project : Str) :
    Nat → Nat → Str → FS → Nat × Except PyErr (Str × FS)
  | 0, counter, out, fs => (counter, .ok (out, fs))
  | fuel + 1, counter, out, fs =>
    if counter < MAX_RUNS then
      if need_latex_rerun out then
        match latex_run opt o project counter with
        | (c', .ok (out', fs')) => rerun_loop opt o project fuel c' out' fs'
        | (c', .error e) => (c', .error e)
      else (counter, .ok (out, fs))
    else (counter, .ok (out, fs))

/-- The cleanup block of `run()`: delete every file of the working
directory that is neither in the baseline listing nor ends with the
final output extension; `os.remove` failures (`except IOError`) leave
the file in place. -/
def clean_step (o : Oracle) (fs : FS) (old_dir : List Str) (ending : Str) : FS :=
  fs.filter fun p =>
    old_dir.contains p.1 || ending.isSuffixOf p.1 || o.removeFails p.1

/-- Applies the cleanup only when the clean flag is set, with the
final extension chosen by the pdf flag. -/
def clean_phase (opt : Opt) (o : Oracle) (fs : FS) (old_dir : List Str) : FS :=
  if opt.clean then
    clean_step o fs old_dir (if opt.pdf then (".pdf").toList else (".dvi").toList)
  else fs

/-- Intermediate orchestrator state threaded between the phases of
`run()`: captured log, file system, glossary registry, pre-run
citation counter, `toc_sha`, glossary-content snapshot, makeindex
invocation index. -/
structure Mid where
  out : Str
  fs : FS
  gl : Registry
  cc : CC
  toc_sha : Str
  gfiles : GlossFiles
  mkIdx : Nat

/-- Steps 2–3 of `run()`: pre-run snapshot (`_read_latex_files`),
first compiler pass, re-parse of the glossary registry (whose absence
of an aux file raises `IOError`). -/
def phase_start (opt : Opt) (o : Oracle) (project : Str) (fs0 : FS) :
    Nat × Except PyErr Mid :=
  match read_latex_files fs0 project [] with
  | .error e => (0, .error e)
  | .ok (cc, gl1, toc_sha, gfiles) =>
    match latex_run opt o project 0 with
    | (c, .error e) => (c, .error e)
    | (c, .ok (out, fs1)) =>
      match read_glossaries fs1 project gl1 with
      | none => (c, .error .ioError)
      | some gl2 => (c, .ok ⟨out, fs1, gl2, cc, toc_sha, gfiles, 0⟩)

/-- Steps 4–5 of `run()`: makeindex runs, then one extra compiler pass
if a glossary was rebuilt or (short-circuit `or`) the
table-of-contents check fires — the latter can only raise `NameError`
or report no change. -/
def phase_gloss (opt : Opt) (o : Oracle) (project : Str) (c : Nat) (m : Mid) :
    Nat × Except PyErr Mid :=
  match makeindex_runs o project m.out m.gfiles m.gl m.fs m.mkIdx with
  | .error e => (c, .error e)
  | .ok (gloss_changed, fs2, mk2, _inv) =>
    if gloss_changed then
      match latex_run opt o project c with
      | (c', .error e) => (c', .error e)
      | (c', .ok (out', fs')) => (c', .ok { m with out := out', fs := fs', mkIdx := mk2 })
    else
      match is_toc_changed fs2 project m.toc_sha with
      | .error e => (c, .error e)
      | .ok b =>
        if b then
          match latex_run opt o project c with
          | (c', .error e) => (c', .error e)
          | (c', .ok (out', fs')) => (c', .ok { m with out := out', fs := fs', mkIdx := mk2 })
        else (c, .ok { m with fs := fs2, mkIdx := mk2 })

/-- Step 6 of `run()`: the bibliography decision, and on a positive
decision a bibtex run followed by one extra compiler pass.  Returns
the resolved `bib_file` alongside the state. -/
def phase_bib (opt : Opt) (o : Oracle) (project : Str) (c : Nat) (m : Mid) :
    Nat × Except PyErr (Mid × Str) :=
  match need_bib_run m.fs project m.out m.cc [] with
  | .error e => (c, .error e)
  | .ok (needed, bf) =>
    if needed then
      match bibtex_run o bf with
      | .error e => (c, .error e)
      | .ok _fsB =>
        match latex_run opt o project c with
        | (c', .error e) => (c', .error e)
        | (c', .ok (out', fs')) => (c', .ok ({ m with out := out', fs := fs' }, bf))
    else (c, .ok (m, bf))

/-- Steps 8–10 of `run()`: the uncited-entries check (reads the aux
file, then opens `'%s.bib' % self.bib_file` — with `bib_file` still
`''` that is the file named `.bib`; each read raises `IOError` when
the file is missing; the reported findings are log-only), then the
cleanup.  Preview, final message and notification have no effect on
the modelled state. -/
def run_tail (opt : Opt) (o : Oracle) (project bib_file : Str) (fs : FS)
    (old_dir : List Str) : Option PyErr × FS :=
  if opt.check_cite then
    match readFile fs (project ++ dotAux) with
    | none => (some .ioError, fs)
    | some _ =>
      match readFile fs (bib_file ++ dotBib) with
      | none => (some .ioError, fs)
      | some _ => (none, clean_phase opt o fs old_dir)
  else (none, clean_phase opt o fs old_dir)

/-- The observable outcome of `LatexMaker.run()`: the exception that
escaped it (if any), the final `latex_run_counter`, and the final file
system (reported as the initial one on aborted runs, where the claims
do not concern it). -/
structure RunResult where
  err : Option PyErr
  counter : Nat
  fs : FS
deriving DecidableEq

/-- `LatexMaker.run()`, assembled from its phases in source order. -/
def run (opt : Opt) (o : Oracle) (project : Str) (fs0 : FS) : RunResult :=
  let old_dir := if opt.clean then fs0.map Prod.fst else []
  match phase_start opt o project fs0 with
  | (c, .error e) => ⟨some e, c, fs0⟩
  | (c, .ok m) =>
    match phase_gloss opt o project c m with
    | (c2, .error e) => ⟨some e, c2, fs0⟩
    | (c2, .ok m2) =>
      match phase_bib opt o project c2 m2 with
      | (c3, .error e) => ⟨some e, c3, fs0⟩
      | (c3, .ok (m3, bib_file)) =>
        match rerun_loop opt o project MAX_RUNS c3 m3.out m3.fs with
        | (c4, .error e) => ⟨some e, c4, fs0⟩
        | (c4, .ok (_, fs4)) =>
          match run_tail opt o project bib_file fs4 old_dir with
          | (some e, fsE) => ⟨some e, c4, fsE⟩
          | (none, fs5) => ⟨none, c4, fs5⟩

/-- What the `main` entry point does with the outcome of `run()`:
`except LatexMkError` logs and calls `sys.exit(1)`; any other
exception propagates uncaught; otherwise the process ends normally. -/
inductive MainOutcome where
  | normal
  | exitOne
  | uncaught (e : PyErr)
deriving DecidableEq

/-- The `try/except LatexMkError` of `main`. -/
def main_outcome (res : RunResult) : MainOutcome :=
  match res.err with
  | some (.latexMkError _) => .exitOne
  | some e => .uncaught e
  | none => .normal

/-! ## Spec-side definitions (for comparison with the implementation) -/

/-- Occurrences of `pat` in a text, one per start position. -/
def occCount (pat : Str) : Str → Nat
  | [] => if pat.isPrefixOf [] then 1 else 0
  | c :: t => (if pat.isPrefixOf (c :: t) then 1 else 0) + occCount pat t

/-- Spec-side count (from the spec's words): the number of
`\citation` markers for key `k` occurring in a text, i.e. occurrences
of the literal marker substring. -/
def markerCount (text k : Str) : Nat := occCount (citeMarker ++ k ++ [rbrace]) text

/-- The last declaration for name `n` in a parsed declaration list
(the one whose registry write survives). -/
def lastDecl : List (Str × Str × Str) → Str → Option (Str × Str)
  | [], _ => none
  | (m, ei, eo) :: t, n =>
    match lastDecl t n with
    | some p => some p
    | none => if m = n then some (ei, eo) else none

/-! ## Helper lemmas -/

theorem dlookup_dinsert (d : List (Str × α)) (k : Str) (v : α) (q : Str) :
    dlookup (dinsert d k v) q = if k = q then some v else dlookup d q := by
  induction d with
  | nil => simp [dinsert, dlookup]
  | cons p t ih =>
    obtain ⟨k', v'⟩ := p
    by_cases hk : k' = k
    · subst hk
      by_cases hq : k' = q <;> simp [dinsert, dlookup, hq]
    · by_cases hq : k' = q
      · subst hq
        simp [dinsert, dlookup, hk, Ne.symm hk]
      · simp [dinsert, dlookup, hk, hq, ih]

theorem dmem_dinsert (d : List (Str × α)) (k : Str) (v : α) (q : Str) :
    dmem (dinsert d k v) q = true ↔ (q = k ∨ dmem d q = true) := by
  simp only [dmem, dlookup_dinsert]
  by_cases h : k = q
  · subst h
    simp
  · have h' : ¬q = k := fun hh => h hh.symm
    simp [h, h']

theorem scanLine_eq_of_some (f : Str → Option α) (l : Str) (r : α)
    (h : f l = some r) : scanLine f l = some r := by
  cases l <;> simp [scanLine, h]

theorem latex_run_fst_le (opt : Opt) (o : Oracle) (project : Str) (c : Nat) :
    (latex_run opt o project c).1 ≤ c + 1 := by
  unfold latex_run
  rcases hr : o.latex c with ⟨lf, fs1⟩
  cases lf
  · simp only [hr]
    split
    · simp
    · split
      · simp
      · split <;> simp
  · simp [hr]

theorem rerun_loop_fst_le (opt : Opt) (o : Oracle) (project : Str) :
    ∀ (fuel counter : Nat) (out : Str) (fs : FS), counter ≤ MAX_RUNS →
      (rerun_loop opt o project fuel counter out fs).1 ≤ MAX_RUNS := by
  intro fuel
  induction fuel with
  | zero => intro counter out fs h; simpa [rerun_loop] using h
  | succ n ih =>
    intro counter out fs h
    unfold rerun_loop
    split
    · rename_i hlt
      split
      · have hle : (latex_run opt o project counter).1 ≤ MAX_RUNS := by
          calc (latex_run opt o project counter).1 ≤ counter + 1 :=
                latex_run_fst_le opt o project counter
            _ ≤ MAX_RUNS := hlt
        split
        · rename_i c' out' fs' heq
          apply ih
          have : (latex_run opt o project counter).1 = c' := by rw [heq]
          omega
        · rename_i c' e heq
          have : (latex_run opt o project counter).1 = c' := by rw [heq]
          simpa [this] using hle
      · simpa using h
    · simpa using h

theorem phase_start_fst_le (opt : Opt) (o : Oracle) (project : Str) (fs0 : FS) :
    (phase_start opt o project fs0).1 ≤ 1 := by
  unfold phase_start
  split
  · simp
  · have hle := latex_run_fst_le opt o project 0
    split
    · rename_i heq
      rw [heq] at hle
      simpa using hle
    · rename_i heq
      rw [heq] at hle
      split <;> simpa using hle

theorem phase_gloss_fst_le (opt : Opt) (o : Oracle) (project : Str) (c : Nat)
    (m : Mid) : (phase_gloss opt o project c m).1 ≤ c + 1 := by
  unfold phase_gloss
  have hle := latex_run_fst_le opt o project c
  split
  · simp
  · split
    · split
      · rename_i heq
        rw [heq] at hle
        simpa using hle
      · rename_i heq
        rw [heq] at hle
        simpa using hle
    · split
      · simp
      · split
        · split
          · rename_i heq
            rw [heq] at hle
            simpa using hle
          · rename_i heq
            rw [heq] at hle
            simpa using hle
        · simp

theorem phase_bib_fst_le (opt : Opt) (o : Oracle) (project : Str) (c : Nat)
    (m : Mid) : (phase_bib opt o project c m).1 ≤ c + 1 := by
  unfold phase_bib
  have hle := latex_run_fst_le opt o project c
  split
  · simp
  · split
    · split
      · simp
      · split
        · rename_i heq
          rw [heq] at hle
          simpa using hle
        · rename_i heq
          rw [heq] at hle
          simpa using hle
    · simp

/-- C1 helper: every leaf of `run` carries a counter bounded by
`MAX_RUNS`. -/
theorem run_counter_le (opt : Opt) (o : Oracle) (project : Str) (fs0 : FS) :
    (run opt o project fs0).counter ≤ MAX_RUNS := by
  simp only [run]
  split
  next c e h1 =>
    have hb := phase_start_fst_le opt o project fs0
    rw [h1] at hb
    show c ≤ MAX_RUNS
    simp only [MAX_RUNS]
    omega
  next c m h1 =>
    have hb := phase_start_fst_le opt o project fs0
    rw [h1] at hb
    have hb2 := phase_gloss_fst_le opt o project c m
    split
    next c2 e h2 =>
      rw [h2] at hb2
      show c2 ≤ MAX_RUNS
      simp only [MAX_RUNS]
      omega
    next c2 m2 h2 =>
      rw [h2] at hb2
      have hb3 := phase_bib_fst_le opt o project c2 m2
      split
      next c3 e h3 =>
        rw [h3] at hb3
        show c3 ≤ MAX_RUNS
        simp only [MAX_RUNS]
        omega
      next c3 m3 bib_file h3 =>
        rw [h3] at hb3
        have hc3 : c3 ≤ MAX_RUNS := by
          simp only [MAX_RUNS]
          omega
        have hb4 := rerun_loop_fst_le opt o project MAX_RUNS c3 m3.out m3.fs hc3
        split
        next c4 e h4 =>
          rw [h4] at hb4
          exact hb4
        next c4 out4 fs4 h4 =>
          rw [h4] at hb4
          split
          next e fsE h5 => exact hb4
          next fs5 h5 => exact hb4

/-- C1: For every invocation of `run()` — over every configuration,
project name, starting file system and every possible behavior of the
external tools (so even if every rerun-trigger pattern matches in
every log) — the compiler is executed at most `MAX_RUNS = 4` times in
total, counting the initial pass, the glossary/TOC extra pass, the
bibliography extra pass and all rerun-loop passes: the final
`latex_run_counter` never exceeds 4 (and it never decreases during a
run, so it is bounded by 4 throughout). -/
theorem run_latex_counter_le_max (opt : Opt) (o : Oracle) (project : Str)
    (fs0 : FS) : (run opt o project fs0).counter ≤ 4 :=
  run_counter_le opt o project fs0

/-! ## Lemmas about citation counting -/

theorem isPrefixOf_append_self (l1 l2 : Str) : l1.isPrefixOf (l1 ++ l2) = true := by
  rw [List.isPrefixOf_iff_prefix]
  exact l1.prefix_append l2

theorem hasSub_of_isPrefixOf (pat l : Str) (h : pat.isPrefixOf l = true) :
    hasSub pat l = true := by
  cases l <;> simp [hasSub, scanB] <;> simp_all

theorem upToLastBrace_closed (k : Str) :
    upToLastBrace (k ++ [rbrace]) = some k := by
  unfold upToLastBrace
  have h1 : (k ++ [rbrace]).reverse = rbrace :: k.reverse := by simp
  rw [h1]
  simp [List.dropWhile]

theorem citeLine_marker (k : Str) :
    citeLine (citeMarker ++ k ++ [rbrace]) = some k := by
  unfold citeLine
  apply scanLine_eq_of_some
  have hp : citeMarker.isPrefixOf (citeMarker ++ k ++ [rbrace]) = true := by
    rw [List.append_assoc]
    exact isPrefixOf_append_self citeMarker (k ++ [rbrace])
  rw [hp]
  simp only [if_true]
  rw [List.append_assoc, List.drop_left]
  exact upToLastBrace_closed k

theorem citeLine_none_of_no_marker (l : Str) (h : hasSub citeMarker l = false) :
    citeLine l = none := by
  induction l with
  | nil =>
    simp only [hasSub, scanB] at h
    simp [citeLine, scanLine, h]
  | cons c t ih =>
    simp only [hasSub, scanB, Bool.or_eq_false_iff] at h
    obtain ⟨h1, h2⟩ := h
    simp only [citeLine, scanLine, h1]
    exact ih h2

theorem countOf_bump (c : Counter) (k k' : Str) :
    countOf (bump c k) k' = countOf c k' + (if k' = k then 1 else 0) := by
  induction c with
  | nil =>
    by_cases h : k = k'
    · subst h
      simp [bump, countOf, dlookup]
    · have h' : ¬k' = k := fun hh => h hh.symm
      simp [bump, countOf, dlookup, h, h']
  | cons p t ih =>
    obtain ⟨k0, n⟩ := p
    by_cases h0 : k0 = k
    · subst h0
      by_cases h1 : k0 = k'
      · subst h1
        simp [bump, countOf, dlookup]
      · have h1' : ¬k' = k0 := fun hh => h1 hh.symm
        simp [bump, countOf, dlookup, h1, h1']
    · by_cases h1 : k0 = k'
      · subst h1
        simp [bump, countOf, dlookup, h0]
      · simp only [bump, countOf, dlookup, h0, if_neg, ite_false]
        simp only [countOf] at ih
        simp [h1, ih]

theorem countOf_foldl_bump (ks : List Str) (k : Str) :
    ∀ c0 : Counter, countOf (ks.foldl bump c0) k = countOf c0 k + ks.count k := by
  induction ks with
  | nil => intro c0; simp
  | cons a t ih =>
    intro c0
    simp only [List.foldl_cons, ih (bump c0 a), countOf_bump, List.count_cons]
    have : (a == k) = decide (k = a) := by
      by_cases h : a = k
      · subst h; simp
      · have h' : ¬k = a := fun hh => h hh.symm
        simp [h, h']
    rw [this]
    by_cases h : k = a
    · simp [h]
      omega
    · simp [h]

theorem marker_line_eq_iff (k' k : Str) :
    citeMarker ++ k' ++ [rbrace] = citeMarker ++ k ++ [rbrace] ↔ k' = k := by
  constructor
  · intro he
    rw [List.append_assoc, List.append_assoc, List.append_cancel_left_eq] at he
    rwa [List.append_cancel_right_eq] at he
  · intro he
    rw [he]

theorem filterMap_citeLine_count (k : Str) :
    ∀ lines : List Str,
      (∀ line ∈ lines, hasSub citeMarker line = false ∨
        ∃ k', line = citeMarker ++ k' ++ [rbrace]) →
      (lines.filterMap citeLine).count k =
        (lines.filter (fun l => l = citeMarker ++ k ++ [rbrace])).length := by
  intro lines
  induction lines with
  | nil => intro _; simp
  | cons l t ih =>
    intro h
    have hl := h l (List.mem_cons_self l t)
    have ht : ∀ line ∈ t, hasSub citeMarker line = false ∨
        ∃ k', line = citeMarker ++ k' ++ [rbrace] :=
      fun line hm => h line (List.mem_cons_of_mem l hm)
    rcases hl with hno | ⟨k', hk'⟩
    · have hne : ¬(l = citeMarker ++ k ++ [rbrace]) := by
        intro he
        have hp : citeMarker.isPrefixOf l = true := by
          rw [he, List.append_assoc]
          exact isPrefixOf_append_self citeMarker (k ++ [rbrace])
        rw [hasSub_of_isPrefixOf citeMarker l hp] at hno
        exact Bool.true_eq_false.mp hno
      rw [List.filter_cons, List.filterMap_cons, citeLine_none_of_no_marker l hno]
      rw [List.append_assoc] at hne
      simp [hne, ih ht]
    · subst hk'
      rw [List.filter_cons, List.filterMap_cons, citeLine_marker k']
      by_cases hkk : k' = k
      · subst hkk
        simp [List.count_cons, ih ht]
      · have h1 : ¬(citeMarker ++ k' ++ [rbrace] = citeMarker ++ k ++ [rbrace]) :=
          fun he => hkk ((marker_line_eq_iff k' k).mp he)
        rw [List.append_assoc, List.append_assoc] at h1
        have h2 : (k' == k) = false := by simp [hkk]
        simp [List.count_cons, h1, h2, hkk, ih ht]

/-- C2 (amended): for a text in which every line either contains no
`\citation` marker at all or consists of exactly one whole marker
`\citation\x7b…\x7d`, `_count_citations` maps each key `k` to the
number of lines that are exactly the marker for `k` — i.e. to the
number of markers for `k`.  (In general the counter is not a per-marker
multiset count: the greedy pattern merges several markers sharing a
line, see the counterexample.) -/
theorem count_citations_line_markers (text k : Str)
    (hlines : ∀ line ∈ splitLines text, hasSub citeMarker line = false ∨
      ∃ k', line = citeMarker ++ k' ++ [rbrace]) :
    countOf (count_citations_text text) k =
      ((splitLines text).filter (fun l => l = citeMarker ++ k ++ [rbrace])).length := by
  unfold count_citations_text citeKeys
  rw [countOf_foldl_bump]
  have h0 : countOf [] k = 0 := rfl
  rw [h0, Nat.zero_add]
  exact filterMap_citeLine_count k (splitLines text) hlines

/-- C2 witness: the amended theorem applied to the three-line text
`\citation\x7ba\x7d`, `x`, `\citation\x7ba\x7d`, whose counter for `a`
is 2. -/
theorem count_citations_line_markers_witness :
    countOf (count_citations_text (("\\citation\x7ba\x7d\nx\n\\citation\x7ba\x7d").toList))
      (("a").toList) = 2 := by
  have h := count_citations_line_markers
    (("\\citation\x7ba\x7d\nx\n\\citation\x7ba\x7d").toList) (("a").toList)
    (by
      intro line hm
      rw [show splitLines (("\\citation\x7ba\x7d\nx\n\\citation\x7ba\x7d").toList) =
          [(("\\citation\x7ba\x7d").toList), (("x").toList),
           (("\\citation\x7ba\x7d").toList)] from by decide] at hm
      simp only [List.mem_cons, List.not_mem_nil, or_false] at hm
      rcases hm with rfl | rfl | rfl
      · exact Or.inr ⟨("a").toList, by decide⟩
      · exact Or.inl (by decide)
      · exact Or.inr ⟨("a").toList, by decide⟩)
  rw [h]
  decide

/-- C2 counterexample: the one-line text `\citation\x7ba\x7d\citation\x7ba\x7d`
contains two markers for key `a`, but the greedy capture of
`CITE_PATTERN` swallows both markers into one key `a\x7d\citation\x7ba`,
so the counter for `a` is 0, not 2. -/
theorem count_citations_not_multiset_cex :
    markerCount (("\\citation\x7ba\x7d\\citation\x7ba\x7d").toList) (("a").toList) = 2 ∧
    countOf (count_citations_text (("\\citation\x7ba\x7d\\citation\x7ba\x7d").toList))
      (("a").toList) = 0 := by
  constructor
  · decide
  · decide

/-! ## C3: the bibliography-rerun decision -/

/-- A file system exhibiting the shallow comparison: `refs.bib` and
`refs.bib.old` differ in content but have equal size and equal
modification time. -/
def cexShallowFS : FS :=
  [((("doc.aux").toList), ⟨("\\bibdata\x7brefs\x7d").toList, 0⟩),
   ((("refs.bib").toList), ⟨("x").toList, 5⟩),
   ((("refs.bib.old").toList), ⟨("y").toList, 5⟩)]

/-- C3 counterexample: with `refs.bib.old` present and byte-different
from `refs.bib` but with an identical stat signature (same size, same
mtime), `filecmp.cmp`'s default shallow mode reports the files equal,
so `_need_bib_run` does not trigger a rerun — refuting that the
saved-copy rule triggers exactly when the contents differ
byte-for-byte. -/
theorem need_bib_run_shallow_cmp_cex :
    need_bib_run cexShallowFS (("doc").toList) [] [((("doc.aux").toList), [])] [] =
      .ok (false, ("refs").toList) ∧
    isfile cexShallowFS (("refs.bib.old").toList) = true ∧
    readFile cexShallowFS (("refs.bib").toList) ≠
      readFile cexShallowFS (("refs.bib.old").toList) := by
  refine ⟨by rfl, by decide, by decide⟩

/-- C3 (amended): (1) the claim's concrete scenario holds: with a
`\bibdata\x7brefs\x7d` directive, an existing `refs.bib`, neither log
notice, an unchanged citation counter and a saved copy identical in
content to `refs.bib`, no bibliography rerun is triggered; (2) in
general the saved-copy rule of the source triggers a rerun exactly
when `refs.bib.old` exists AND its stat signature (size, mtime)
differs from `refs.bib` AND its content differs byte-for-byte — the
shallow `filecmp.cmp` comparison, not a pure content comparison. -/
theorem need_bib_run_rules :
    (∀ (fs : FS) (project out : Str) (old_cc : CC) (auxC bf : Str) (ncc : CC)
      (a b : FileData),
      readFile fs (project ++ dotAux) = some auxC →
      bibdataSearch auxC = some bf →
      isfile fs (bf ++ dotBib) = true →
      wildSearch (("No file ").toList ++ project ++ (".bbl.").toList) out = false →
      citeUndefSearch out = false →
      generate_citation_counter fs project = some ncc →
      ccEqb old_cc ncc = true →
      dlookup fs (bf ++ dotBib) = some a →
      dlookup fs (bf ++ dotBibOld) = some b →
      a.content = b.content →
      need_bib_run fs project out old_cc [] = .ok (false, bf)) ∧
    (∀ (fs : FS) (bf : Str) (a : FileData),
      dlookup fs (bf ++ dotBib) = some a →
      (bib_old_check fs bf = true ↔
        ∃ b, dlookup fs (bf ++ dotBibOld) = some b ∧
          (a.content.length ≠ b.content.length ∨ a.mtime ≠ b.mtime) ∧
          a.content ≠ b.content)) := by
  constructor
  · intro fs project out old_cc auxC bf ncc a b haux hbd hbib hw hcu hgen hcc ha hb heq
    have hbo : bib_old_check fs bf = false := by
      unfold bib_old_check
      rw [show isfile fs (bf ++ dotBibOld) = true from by simp [isfile, hb]]
      simp only [if_true]
      rw [ha, hb]
      simp [filecmp_cmp, heq]
    simp only [need_bib_run, haux, hbd, hbib, hw, hcu, hgen, hcc, hbo, Bool.not_true,
      Bool.not_false, if_true, if_false, ite_true, ite_false]
    simp
  · intro fs bf a ha
    unfold bib_old_check
    cases hol : dlookup fs (bf ++ dotBibOld) with
    | none => simp [isfile, hol]
    | some b =>
      rw [show isfile fs (bf ++ dotBibOld) = true from by simp [isfile, hol]]
      simp only [if_true]
      rw [ha]
      simp only [Option.some.injEq]
      constructor
      · intro hcmp
        refine ⟨b, rfl, ?_⟩
        simp only [filecmp_cmp, Bool.not_eq_true', Bool.or_eq_false_iff,
          Bool.and_eq_false_iff] at hcmp
        obtain ⟨hsig, hcont⟩ := hcmp
        refine ⟨?_, by simpa using hcont⟩
        rcases hsig with h | h
        · exact Or.inl (by simpa using h)
        · exact Or.inr (by simpa using h)
      · rintro ⟨b', rfl, hsig, hcont⟩
        simp only [filecmp_cmp, Bool.not_eq_true', Bool.or_eq_false_iff,
          Bool.and_eq_false_iff]
        refine ⟨?_, by simpa using hcont⟩
        rcases hsig with h | h
        · exact Or.inl (by simpa using h)
        · exact Or.inr (by simpa using h)

/-- A file system for the C3 witness: the saved copy is byte-identical
to `refs.bib` (differing mtime exercises the content fallback). -/
def witBibFS : FS :=
  [((("doc.aux").toList), ⟨("\\bibdata\x7brefs\x7d").toList, 0⟩),
   ((("refs.bib").toList), ⟨("x").toList, 5⟩),
   ((("refs.bib.old").toList), ⟨("x").toList, 7⟩)]

/-- C3 witness: the scenario conjunct applied to a file system where
the saved copy is byte-identical to `refs.bib`; no rerun is
triggered. -/
theorem need_bib_run_rules_witness :
    need_bib_run witBibFS (("doc").toList) [] [((("doc.aux").toList), [])] [] =
      .ok (false, ("refs").toList) :=
  need_bib_run_rules.1 witBibFS (("doc").toList) [] [((("doc.aux").toList), [])]
    (("\\bibdata\x7brefs\x7d").toList) (("refs").toList) [((("doc.aux").toList), [])]
    ⟨("x").toList, 5⟩ ⟨("x").toList, 7⟩
    (by decide) (by decide) (by decide) (by decide) (by decide) (by decide)
    (by decide) (by decide) (by decide) (by decide)

/-! ## C4: the table-of-contents comparison crashes -/

/-- C4 (code bug): the claimed behavior — an extra compiler pass when
the `.toc` content hash changed across the first pass — is
unreachable: whenever the `.toc` file exists, `_read_latex_files`
(before the pass) and `_is_toc_changed` (after the pass) both evaluate
the undefined name `hashlib` (the source only imports `sha256` from
`hashlib`, and additionally misspells `sha265` in
`_read_latex_files`), raising `NameError` instead of computing any
hash. -/
theorem toc_hash_raises_nameerror :
    (∀ (fs : FS) (project : Str) (gl0 : Registry),
      isfile fs (project ++ dotToc) = true →
      read_latex_files fs project gl0 = .error .nameError) ∧
    (∀ (fs : FS) (project sha : Str),
      isfile fs (project ++ dotToc) = true →
      is_toc_changed fs project sha = .error .nameError) := by
  constructor
  · intro fs project gl0 htoc
    unfold read_latex_files
    by_cases haux : isfile fs (project ++ dotAux) = true
    · have hx := haux
      simp only [isfile] at hx
      obtain ⟨fd, hfd⟩ := Option.isSome_iff_exists.mp hx
      have h1 : readFile fs (project ++ dotAux) = some fd.content := by
        simp [readFile, hfd]
      simp only [haux, if_true, generate_citation_counter, read_glossaries, h1,
        Option.map_some', htoc, ite_true]
    · have haux' : isfile fs (project ++ dotAux) = false :=
        Bool.eq_false_iff.mpr haux
      simp only [haux', Bool.false_eq_true, if_false, htoc, ite_true]
  · intro fs project sha htoc
    simp [is_toc_changed, htoc]

/-- C4 witness: a directory containing `doc.toc` makes the snapshot
phase raise `NameError`. -/
theorem toc_hash_raises_nameerror_witness :
    read_latex_files [((("doc.toc").toList), ⟨[], 0⟩)] (("doc").toList) [] =
      .error .nameError :=
  toc_hash_raises_nameerror.1 [((("doc.toc").toList), ⟨[], 0⟩)] (("doc").toList) []
    (by decide)

/-! ## C5: makeindex decisions -/

theorem makeindex_changed_iff_aux (o : Oracle) (project out : Str)
    (gfiles : GlossFiles) :
    ∀ (reg : Registry) (fs : FS) (mk : Nat) (ch : Bool) (fs' : FS) (mk' : Nat)
      (inv : List Str),
      makeindex_runs o project out gfiles reg fs mk = .ok (ch, fs', mk', inv) →
      (ch = true ↔ inv ≠ []) := by
  intro reg
  induction reg with
  | nil =>
    intro fs mk ch fs' mk' inv h
    simp only [makeindex_runs, Except.ok.injEq, Prod.mk.injEq] at h
    obtain ⟨h1, _, _, h4⟩ := h
    subst h1
    subst h4
    simp
  | cons p rest ih =>
    obtain ⟨gloss, ei, eo⟩ := p
    intro fs mk ch fs' mk' inv h
    simp only [makeindex_runs] at h
    by_cases hd : make_gloss_decision fs project out gfiles gloss ei eo = true
    · rw [if_pos hd] at h
      by_cases hf : o.mkFails mk = true
      · rw [if_pos hf] at h
        exact absurd h (by simp)
      · rw [if_neg hf] at h
        cases hrec : makeindex_runs o project out gfiles rest (o.mkFs mk) (mk + 1) with
        | error e =>
          rw [hrec] at h
          exact absurd h (by simp)
        | ok q =>
          obtain ⟨ch0, fs0, mk0, inv0⟩ := q
          rw [hrec] at h
          simp only [Except.ok.injEq, Prod.mk.injEq] at h
          obtain ⟨h1, _, _, h4⟩ := h
          subst h1
          subst h4
          simp
    · rw [if_neg hd] at h
      exact ih fs mk ch fs' mk' inv h

/-- C5: (1) the per-glossary rebuild decision of `makeindex_runs` is
true exactly when the compiler log reports the glossary's input file
missing, or the output file is absent, or its content differs from —
or is missing in — the pre-run snapshot; (2) the return value is true
exactly when the index tool was invoked for at least one glossary;
(3) in the claim's scenario, a registered glossary whose output file
does not exist gets the index tool invoked and a rebuild reported. -/
theorem makeindex_runs_spec :
    (∀ (fs : FS) (project out : Str) (gfiles : GlossFiles) (gloss ei eo : Str),
      make_gloss_decision fs project out gfiles gloss ei eo = true ↔
        (wildSearch (("No file ").toList ++ (project ++ [dotChar] ++ ei) ++ [dotChar])
            out = true ∨
         readFile fs (project ++ [dotChar] ++ eo) = none ∨
         ∃ content, readFile fs (project ++ [dotChar] ++ eo) = some content ∧
           dlookup gfiles gloss ≠ some content)) ∧
    (∀ (o : Oracle) (project out : Str) (gfiles : GlossFiles) (reg : Registry)
      (fs : FS) (mk : Nat) (ch : Bool) (fs' : FS) (mk' : Nat) (inv : List Str),
      makeindex_runs o project out gfiles reg fs mk = .ok (ch, fs', mk', inv) →
      (ch = true ↔ inv ≠ [])) ∧
    (∀ (o : Oracle) (project out : Str) (gfiles : GlossFiles) (gloss ei eo : Str)
      (fs : FS) (mk : Nat),
      readFile fs (project ++ [dotChar] ++ eo) = none →
      o.mkFails mk = false →
      makeindex_runs o project out gfiles [(gloss, (ei, eo))] fs mk =
        .ok (true, o.mkFs mk, mk + 1, [gloss])) := by
  refine ⟨?_, ?_, ?_⟩
  · intro fs project out gfiles gloss ei eo
    unfold make_gloss_decision
    dsimp only
    cases hrf : readFile fs (project ++ [dotChar] ++ eo) with
    | none => simp
    | some content =>
      cases hg : dlookup gfiles gloss with
      | none => simp
      | some snap =>
        by_cases hsc : snap = content
        · subst hsc
          simp
        · simp [hsc, Ne.symm hsc]
  · intro o project out gfiles reg fs mk ch fs' mk' inv h
    exact makeindex_changed_iff_aux o project out gfiles reg fs mk ch fs' mk' inv h
  · intro o project out gfiles gloss ei eo fs mk hrf hmf
    have hd : make_gloss_decision fs project out gfiles gloss ei eo = true := by
      unfold make_gloss_decision
      dsimp only
      rw [hrf]
      simp
    simp [makeindex_runs, hd, hmf]

/-- C5 witness: scenario conjunct at a concrete environment —
glossary `main` with extensions `(glo, gls)`, `doc.gls` absent: the
tool is invoked for `main` and a rebuild is reported. -/
theorem makeindex_runs_spec_witness :
    makeindex_runs
      ⟨fun _ => ⟨false, []⟩, fun _ => false, fun _ => [], false, [], 0, fun _ => false⟩
      (("doc").toList) [] []
      [((("main").toList), ((("glo").toList), (("gls").toList)))] [] 0 =
      .ok (true, [], 1, [("main").toList]) :=
  makeindex_runs_spec.2.2
    ⟨fun _ => ⟨false, []⟩, fun _ => false, fun _ => [], false, [], 0, fun _ => false⟩
    (("doc").toList) [] [] (("main").toList) (("glo").toList) (("gls").toList) [] 0
    (by decide) (by decide)

/-! ## C6: glossary registry updates -/

theorem dlookup_foldl_decls (ds : List (Str × Str × Str)) (n : Str) :
    ∀ g0 : Registry,
      dlookup (ds.foldl (fun g d => dinsert g d.1 (d.2.1, d.2.2)) g0) n =
        (match lastDecl ds n with
         | some p => some p
         | none => dlookup g0 n) := by
  induction ds with
  | nil => intro g0; simp [lastDecl]
  | cons d t ih =>
    obtain ⟨m, ei, eo⟩ := d
    intro g0
    simp only [List.foldl_cons]
    rw [ih (dinsert g0 m (ei, eo))]
    simp only [lastDecl]
    cases lastDecl t n with
    | some p => rfl
    | none =>
      rw [dlookup_dinsert]
      by_cases h : m = n <;> simp [h]

/-- C6 (amended): `read_glossaries` updates the registry in place:
every name declared in the current auxiliary file is mapped to its
(ext_i, ext_o) pair — the last declaration for a name winning — while
entries for names not declared in the current file are retained
unchanged (the source never clears `self.glossaries`, so the registry
is not populated fresh). -/
theorem read_glossaries_update (fs : FS) (project : Str) (gl0 : Registry)
    (auxC : Str) (haux : readFile fs (project ++ dotAux) = some auxC) :
    ∃ gl, read_glossaries fs project gl0 = some gl ∧
      (∀ n, lastDecl (glossDecls auxC) n = none → dlookup gl n = dlookup gl0 n) ∧
      (∀ n p, lastDecl (glossDecls auxC) n = some p → dlookup gl n = some p) := by
  refine ⟨(glossDecls auxC).foldl (fun g d => dinsert g d.1 (d.2.1, d.2.2)) gl0,
    ?_, ?_, ?_⟩
  · simp [read_glossaries, haux]
  · intro n hn
    rw [dlookup_foldl_decls _ n gl0, hn]
  · intro n p hp
    rw [dlookup_foldl_decls _ n gl0, hp]

/-- C6 witness: the amended theorem applied to an aux file declaring
one glossary `new` over an empty prior registry. -/
theorem read_glossaries_update_witness :
    ∃ gl, read_glossaries
      [((("doc.aux").toList),
        ⟨("\\@newglossary\x7bnew\x7d\x7bglg\x7d\x7bgls\x7d\x7bglo\x7d").toList, 0⟩)]
      (("doc").toList) [] = some gl ∧
      (∀ n, lastDecl (glossDecls
          (("\\@newglossary\x7bnew\x7d\x7bglg\x7d\x7bgls\x7d\x7bglo\x7d").toList)) n =
            none →
        dlookup gl n = dlookup ([] : Registry) n) ∧
      (∀ n p, lastDecl (glossDecls
          (("\\@newglossary\x7bnew\x7d\x7bglg\x7d\x7bgls\x7d\x7bglo\x7d").toList)) n =
            some p →
        dlookup gl n = some p) :=
  read_glossaries_update _ (("doc").toList) [] _ (by rfl)

/-- C6 counterexample: with a stale registry entry `old` and an aux
file declaring only the glossary `new`, the registry after
`read_glossaries` still holds `old` although no declaration of the
current auxiliary file mentions it — refuting that the registry
contains no entries other than those derived from the current file. -/
theorem read_glossaries_stale_cex :
    read_glossaries
      [((("doc.aux").toList),
        ⟨("\\@newglossary\x7bnew\x7d\x7bglg\x7d\x7bgls\x7d\x7bglo\x7d").toList, 0⟩)]
      (("doc").toList)
      [((("old").toList), ((("gi").toList), (("go").toList)))] =
      some [((("old").toList), ((("gi").toList), (("go").toList))),
            ((("new").toList), ((("gls").toList), (("glo").toList)))] ∧
    (glossDecls
      (("\\@newglossary\x7bnew\x7d\x7bglg\x7d\x7bgls\x7d\x7bglo\x7d").toList)).all
      (fun d => !(d.1 == ("old").toList)) = true := by
  refine ⟨by rfl, by decide⟩

/-! ## C7: error propagation -/

/-- C7: (1) `check_errors` aborts exactly when the log scan found
errors and the stop-on-error flag is set — otherwise the run proceeds;
(2) when it aborts, the raised exception is the distinguished
`LatexMkError` carrying a message; (3) a failure to launch the
compiler raises `LatexMkError`; (4) an unresolvable project name
(missing `.texlipse`) raises `LatexMkError`; (5) the top-level entry
point exits with status 1 exactly on a `LatexMkError`, ends normally
when nothing was raised, and lets any other exception propagate
uncaught. -/
theorem error_propagation_spec :
    (∀ (project out : Str) (flag : Bool),
      (∃ e, check_errors project out flag = .error e) ↔
        (errorsFound out = true ∧ flag = true)) ∧
    (∀ (project out : Str) (flag : Bool) (e : PyErr),
      check_errors project out flag = .error e → ∃ m, e = .latexMkError m) ∧
    (∀ (opt : Opt) (o : Oracle) (project : Str) (c : Nat),
      (o.latex c).launchFails = true →
      ∃ m, (latex_run opt o project c).2 = .error (.latexMkError m)) ∧
    (∀ fs : FS, isfile fs ((".texlipse").toList) = false →
      ∃ m, parse_texlipse_config fs = .error (.latexMkError m)) ∧
    (∀ res : RunResult,
      (main_outcome res = .exitOne ↔ ∃ m, res.err = some (.latexMkError m)) ∧
      (res.err = none → main_outcome res = .normal) ∧
      (∀ e, res.err = some e → (∀ m, e ≠ .latexMkError m) →
        main_outcome res = .uncaught e)) := by
  refine ⟨?_, ?_, ?_, ?_, ?_⟩
  · intro project out flag
    by_cases h1 : errorsFound out = true <;> by_cases h2 : flag = true <;>
      simp [check_errors, h1, h2]
  · intro project out flag e h
    unfold check_errors at h
    by_cases h1 : errorsFound out = true
    · rw [if_pos h1] at h
      by_cases h2 : flag = true
      · rw [if_pos h2] at h
        injection h with h'
        exact ⟨_, h'.symm⟩
      · rw [if_neg h2] at h
        cases h
    · rw [if_neg h1] at h
      cases h
  · intro opt o project c h
    refine ⟨no_latex_error (latex_cmd opt), ?_⟩
    simp [latex_run, h]
  · intro fs h
    refine ⟨("! Fatal error: File .texlipse is missing.").toList, ?_⟩
    unfold parse_texlipse_config
    rw [h]
    simp
  · intro res
    obtain ⟨err, counter, fs⟩ := res
    refine ⟨?_, ?_, ?_⟩
    · cases err with
      | none => simp [main_outcome]
      | some e => cases e <;> simp [main_outcome]
    · intro h
      simp only at h
      rw [h]
      simp [main_outcome]
    · intro e he hne
      simp only at he
      cases e with
      | latexMkError m => exact absurd rfl (hne m)
      | nameError => rw [he]; simp [main_outcome]
      | ioError => rw [he]; simp [main_outcome]

/-- C7 witness: the launch-failure conjunct at a concrete oracle whose
compiler launch raises `OSError`: the pass aborts with
`LatexMkError`. -/
theorem error_propagation_spec_witness :
    ∃ m, (latex_run ⟨false, true, true, false, false, false, none⟩
      ⟨fun _ => ⟨true, []⟩, fun _ => false, fun _ => [], false, [], 0, fun _ => false⟩
      (("doc").toList) 0).2 = .error (.latexMkError m) :=
  error_propagation_spec.2.2.1 ⟨false, true, true, false, false, false, none⟩
    ⟨fun _ => ⟨true, []⟩, fun _ => false, fun _ => [], false, [], 0, fun _ => false⟩
    (("doc").toList) 0 (by decide)

/-! ## C8: the aggregate citation counter -/

theorem readFile_none_iff (fs : FS) (f : Str) :
    readFile fs f = none ↔ isfile fs f = false := by
  unfold readFile isfile
  cases dlookup fs f <;> simp

theorem isfile_true_of_readFile_some (fs : FS) (f : Str) (c : Str)
    (h : readFile fs f = some c) : isfile fs f = true := by
  unfold readFile at h
  unfold isfile
  cases hd : dlookup fs f
  · rw [hd] at h
    cases h
  · simp

theorem dmem_gcc_fold (fs : FS) :
    ∀ (refs : List Str) (cc0 : CC) (f : Str),
      dmem (refs.foldl
        (fun cc fname =>
          match readFile fs fname with
          | none => cc
          | some content => dinsert cc fname (count_citations_text content)) cc0) f =
          true ↔
      (dmem cc0 f = true ∨ (f ∈ refs ∧ isfile fs f = true)) := by
  intro refs
  induction refs with
  | nil => intro cc0 f; simp
  | cons r t ih =>
    intro cc0 f
    simp only [List.foldl_cons]
    cases hr : readFile fs r with
    | none =>
      rw [ih]
      constructor
      · rintro (h | h)
        · exact Or.inl h
        · exact Or.inr ⟨List.mem_cons_of_mem r h.1, h.2⟩
      · rintro (h | ⟨hm, hf⟩)
        · exact Or.inl h
        · rcases List.mem_cons.mp hm with rfl | hm'
          · rw [readFile_none_iff] at hr
            rw [hr] at hf
            cases hf
          · exact Or.inr ⟨hm', hf⟩
    | some content =>
      rw [ih, dmem_dinsert]
      have hrt : isfile fs r = true := isfile_true_of_readFile_some fs r content hr
      constructor
      · rintro ((h | h) | h)
        · rw [h]
          exact Or.inr ⟨List.mem_cons_self r t, hrt⟩
        · exact Or.inl h
        · exact Or.inr ⟨List.mem_cons_of_mem r h.1, h.2⟩
      · rintro (h | ⟨hm, hf⟩)
        · exact Or.inl (Or.inr h)
        · rcases List.mem_cons.mp hm with rfl | hm'
          · exact Or.inl (Or.inl rfl)
          · exact Or.inr ⟨hm', hf⟩

/-- C8: when the main aux file is readable, `generate_citation_counter`
succeeds (never raises, whatever the referenced files), and its
aggregate contains exactly the main aux file plus every
`\@input`-referenced aux file that is readable — unreadable referenced
files are silently omitted. -/
theorem generate_citation_counter_included (fs : FS) (project : Str) (auxC : Str)
    (haux : readFile fs (project ++ dotAux) = some auxC) :
    ∃ cc, generate_citation_counter fs project = some cc ∧
      ∀ f, dmem cc f = true ↔
        (f = project ++ dotAux ∨ (f ∈ inputRefs auxC ∧ isfile fs f = true)) := by
  have hg : generate_citation_counter fs project =
      some ((inputRefs auxC).foldl
        (fun cc fname =>
          match readFile fs fname with
          | none => cc
          | some content => dinsert cc fname (count_citations_text content))
        (dinsert [] (project ++ dotAux) (count_citations_text auxC))) := by
    unfold generate_citation_counter
    rw [haux]
  refine ⟨_, hg, ?_⟩
  intro f
  rw [dmem_gcc_fold fs (inputRefs auxC) _ f, dmem_dinsert]
  constructor
  · rintro ((h | h) | h)
    · exact Or.inl h
    · simp [dmem, dlookup] at h
    · exact Or.inr h
  · rintro (h | h)
    · exact Or.inl (Or.inl h)
    · exact Or.inr h

/-- A file system for the C8 witness: the main aux file references a
readable `ch1.aux` and an unreadable `missing.aux`. -/
def witGccFS : FS :=
  [((("doc.aux").toList),
    ⟨("\\@input\x7bch1.aux\x7d\n\\@input\x7bmissing.aux\x7d").toList, 0⟩),
   ((("ch1.aux").toList), ⟨("\\citation\x7bk\x7d").toList, 0⟩)]

/-- C8 witness: the theorem applied to `witGccFS`. -/
theorem generate_citation_counter_included_witness :
    ∃ cc, generate_citation_counter witGccFS (("doc").toList) = some cc ∧
      ∀ f, dmem cc f = true ↔
        (f = (("doc").toList) ++ dotAux ∨
         (f ∈ inputRefs (("\\@input\x7bch1.aux\x7d\n\\@input\x7bmissing.aux\x7d").toList) ∧
          isfile witGccFS f = true)) :=
  generate_citation_counter_included witGccFS (("doc").toList) _ (by rfl)

/-! ## C9: cleanup -/

theorem dlookup_filter_key (p : Str → Bool) :
    ∀ (fs : FS) (f : Str),
      dlookup (fs.filter (fun q => p q.1)) f =
        (if p f then dlookup fs f else none) := by
  intro fs
  induction fs with
  | nil => intro f; simp [dlookup]
  | cons q t ih =>
    obtain ⟨k, v⟩ := q
    intro f
    by_cases hp : p k = true
    · simp only [List.filter_cons, hp, if_true]
      by_cases hk : k = f
      · subst hk
        simp [dlookup, hp]
      · simp [dlookup, hk, ih]
    · have hp' : p k = false := Bool.eq_false_iff.mpr hp
      simp only [List.filter_cons, hp', Bool.false_eq_true, if_false]
      rw [ih f]
      by_cases hk : k = f
      · subst hk
        simp [dlookup, hp']
      · simp [dlookup, hk]

/-- C9: with the clean flag set, `run()`'s cleanup step leaves a file
of the working directory untouched (same lookup result) exactly when
it was in the baseline listing, or ends with the final output
extension, or its deletion failed (swallowed); every other file is
deleted. -/
theorem clean_step_exact (o : Oracle) (fs : FS) (old_dir : List Str) (ending : Str)
    (f : Str) :
    dlookup (clean_step o fs old_dir ending) f =
      (if old_dir.contains f || ending.isSuffixOf f || o.removeFails f
       then dlookup fs f
       else none) :=
  dlookup_filter_key (fun q => old_dir.contains q || ending.isSuffixOf q ||
    o.removeFails q) fs f

/-! ## C10: the uncited-entries check with no bibliography directive -/

/-- C10: when the uncited-entries check is requested but the aux file
produced by the compiler pass contains no `\bibdata` directive (so
`self.bib_file` keeps its initial empty-string value and no
bibliography pass runs), `run()` goes on to open the file named
`.bib`; with that file absent, the resulting `IOError` escapes
`run()` and — not being a `LatexMkError` — propagates uncaught through
`main` instead of being reported as informational or skipped. -/
theorem run_check_cite_empty_bib (opt : Opt) (o : Oracle) (project : Str)
    (fs0 fs1 : FS) (out1 auxC : Str)
    (hcc : opt.check_cite = true)
    (h0aux : isfile fs0 (project ++ dotAux) = false)
    (h0toc : isfile fs0 (project ++ dotToc) = false)
    (hl : o.latex 0 = ⟨false, fs1⟩)
    (hlog : readFile fs1 (project ++ dotLog) = some out1)
    (herr : errorsFound out1 = false)
    (haux : readFile fs1 (project ++ dotAux) = some auxC)
    (hgl : glossDecls auxC = [])
    (htoc : isfile fs1 (project ++ dotToc) = false)
    (hbd : bibdataSearch auxC = none)
    (hrr : need_latex_rerun out1 = false)
    (hbib : readFile fs1 dotBib = none) :
    (run opt o project fs0).err = some .ioError ∧
    main_outcome (run opt o project fs0) = .uncaught .ioError := by
  have h1 : read_latex_files fs0 project [] =
      .ok (dinsert [] (project ++ dotAux) [], [], [], []) := by
    unfold read_latex_files
    rw [h0aux, h0toc]
    simp
  have h2 : latex_run opt o project 0 = (1, .ok (out1, fs1)) := by
    unfold latex_run check_errors
    rw [hl]
    simp [hlog, herr]
  have h3 : read_glossaries fs1 project [] = some [] := by
    unfold read_glossaries
    rw [haux]
    simp [hgl]
  have h4 : phase_start opt o project fs0 =
      (1, .ok ⟨out1, fs1, [], dinsert [] (project ++ dotAux) [], [], [], 0⟩) := by
    simp only [phase_start, h1, h2, h3]
  have h6 : is_toc_changed fs1 project [] = .ok false := by
    simp [is_toc_changed, htoc]
  have h7 : phase_gloss opt o project 1
      ⟨out1, fs1, [], dinsert [] (project ++ dotAux) [], [], [], 0⟩ =
      (1, .ok ⟨out1, fs1, [], dinsert [] (project ++ dotAux) [], [], [], 0⟩) := by
    simp only [phase_gloss, makeindex_runs, h6]
    simp
  have h8 : need_bib_run fs1 project out1 (dinsert [] (project ++ dotAux) []) [] =
      .ok (false, []) := by
    unfold need_bib_run
    rw [haux]
    simp only [hbd]
  have h9 : phase_bib opt o project 1
      ⟨out1, fs1, [], dinsert [] (project ++ dotAux) [], [], [], 0⟩ =
      (1, .ok (⟨out1, fs1, [], dinsert [] (project ++ dotAux) [], [], [], 0⟩, [])) := by
    simp only [phase_bib, h8]
    simp
  have h10 : rerun_loop opt o project MAX_RUNS 1 out1 fs1 = (1, .ok (out1, fs1)) := by
    have hm : MAX_RUNS = 3 + 1 := rfl
    rw [hm]
    unfold rerun_loop
    rw [hrr]
    simp [MAX_RUNS]
  have h11 : ∀ od, run_tail opt o project [] fs1 od = (some .ioError, fs1) := by
    intro od
    unfold run_tail
    rw [hcc]
    simp [haux, hbib]
  have hrun : run opt o project fs0 = ⟨some .ioError, 1, fs1⟩ := by
    simp only [run, h4, h7, h9, h10, h11]
  rw [hrun]
  exact ⟨rfl, rfl⟩

/-- C10 witness: a concrete run — empty starting directory, a compiler
pass that produces an empty log and an empty aux file, the check-cite
flag set — ends with an uncaught `IOError` from opening `.bib`. -/
theorem run_check_cite_empty_bib_witness :
    (run ⟨false, true, true, true, false, false, none⟩
      ⟨fun _ => ⟨false, [((("doc.log").toList), ⟨[], 0⟩),
                         ((("doc.aux").toList), ⟨[], 0⟩)]⟩,
       fun _ => false, fun _ => [], false, [], 0, fun _ => false⟩
      (("doc").toList) []).err = some .ioError ∧
    main_outcome (run ⟨false, true, true, true, false, false, none⟩
      ⟨fun _ => ⟨false, [((("doc.log").toList), ⟨[], 0⟩),
                         ((("doc.aux").toList), ⟨[], 0⟩)]⟩,
       fun _ => false, fun _ => [], false, [], 0, fun _ => false⟩
      (("doc").toList) []) = .uncaught .ioError :=
  run_check_cite_empty_bib ⟨false, true, true, true, false, false, none⟩
    ⟨fun _ => ⟨false, [((("doc.log").toList), ⟨[], 0⟩),
                       ((("doc.aux").toList), ⟨[], 0⟩)]⟩,
     fun _ => false, fun _ => [], false, [], 0, fun _ => false⟩
    (("doc").toList) []
    [((("doc.log").toList), ⟨[], 0⟩), ((("doc.aux").toList), ⟨[], 0⟩)] [] []
    (by decide) (by decide) (by decide) (by rfl) (by rfl) (by decide) (by rfl)
    (by decide) (by decide) (by decide) (by decide) (by rfl)
